import Mathlib

/-!
Verification of the LitTouch server (`src/app.py`): a Flask/SocketIO
application with a real-time chess room manager (`on_join_game`,
`on_make_move`, `on_reset` over the global `games` dict), a quiz question
sampler (`api_quiz_start`) and a leaderboard (`api_quiz_submit`,
`api_leaderboard`).

The chess rules engine (the `python-chess` library: `chess.Board()`,
`chess.Move.from_uci`, `board.legal_moves`, `board.push`, `board.fen()`)
is an external collaborator, modelled abstractly by its interface: a
`ChessLib` structure with an opaque position type, a starting position,
a FEN serializer, a UCI parser (returning `none` where the library raises,
matching the `except Exception` in `on_make_move`), a legality test and a
move application.  The socket transport is modelled by explicit emission
values (`Emit.toSid` for `emit(..., to=sid)` / `emit(..., room=sid)`,
`Emit.toRoom` for `emit(..., room=room)`), and SocketIO channel membership
(`join_room`) by a `channels` association list in the server state.
-/

namespace LitTouch

/-- Interface of the external `python-chess` library as used by `app.py`.
`fromUci` returns `none` when `chess.Move.from_uci` would raise. -/
structure ChessLib where
  Pos : Type
  Mv : Type
  start : Pos
  fen : Pos → String
  fromUci : String → Option Mv
  legal : Pos → Mv → Bool
  push : Pos → Mv → Pos

/-- Python `dict.get`: lookup in an association list. -/
def lookupA {α : Type} : List (String × α) → String → Option α
  | [], _ => none
  | (k, v) :: t, key => if k = key then some v else lookupA t key

/-- Python `d[key] = v`: replace the existing binding or append a new one. -/
def insertA {α : Type} : List (String × α) → String → α → List (String × α)
  | [], key, v => [(key, v)]
  | (k, w) :: t, key, v =>
      if k = key then (key, v) :: t else (k, w) :: insertA t key v

/-- One entry of the `games` dict:
`{'board': board, 'players': [...], 'fen': board.fen()}`. -/
structure Game (L : ChessLib) where
  board : L.Pos
  players : List String
  fen : String

/-- Server-side mutable state: the global `games` dict plus the SocketIO
room-channel membership maintained by `join_room`. -/
structure ServerState (L : ChessLib) where
  games : List (String × Game L)
  channels : List (String × List String)

/-- Payloads of the SocketIO events emitted by the handlers. -/
inductive Payload where
  | gameState (fen : String)
  | errorMsg (msg : String)
  | invalidMove (msg : String)
  | moveMade (uci : String) (fen : String)
deriving DecidableEq, Repr

/-- One `emit` call: either to a single socket id or to a room channel. -/
inductive Emit where
  | toSid (sid : String) (p : Payload)
  | toRoom (room : String) (p : Payload)
deriving DecidableEq, Repr

/-- `data.get('room') or 'default'`: `None` (missing field) and the empty
string are falsy in Python, so both fall back to `'default'`. -/
def resolveRoom (room? : Option String) : String :=
  match room? with
  | none => "default"
  | some s => if s = "" then "default" else s

/-- `join_room(room)`: SocketIO adds `sid` to the room channel (channels
are sets of socket ids, so membership is not duplicated). -/
def joinChannel (chs : List (String × List String)) (room sid : String) :
    List (String × List String) :=
  match lookupA chs room with
  | none => insertA chs room [sid]
  | some l => if sid ∈ l then chs else insertA chs room (l ++ [sid])

/-- Sockets that a `room=room` emission reaches. -/
def channelMembers {L : ChessLib} (st : ServerState L) (room : String) :
    List String :=
  (lookupA st.channels room).getD []

/-- Whether connection `c` receives emission `e` in state `st`. -/
def deliveredTo {L : ChessLib} (st : ServerState L) (e : Emit) (c : String) :
    Prop :=
  match e with
  | Emit.toSid s _ => c = s
  | Emit.toRoom r _ => c ∈ channelMembers st r

/-- `on_join_game` (src/app.py lines 133-145): resolve the room id, join the
socket channel, lazily create the game (fresh board, empty players,
`fen = board.fen()`), append `sid` to `players` if absent (in-place mutation
of the dict entry, hence the re-insertion), and emit the current fen to the
joining socket only. -/
def on_join_game (L : ChessLib) (st : ServerState L) (sid : String)
    (room? : Option String) : ServerState L × List Emit :=
  let room := resolveRoom room?
  let chs := joinChannel st.channels room sid
  let (game, gs) :=
    match lookupA st.games room with
    | none =>
        let b := L.start
        let g : Game L := ⟨b, [], L.fen b⟩
        (g, insertA st.games room g)
    | some g => (g, st.games)
  let game' :=
    if sid ∈ game.players then game
    else { game with players := game.players ++ [sid] }
  (⟨insertA gs room game', chs⟩, [Emit.toSid sid (Payload.gameState game'.fen)])

/-- `on_make_move` (src/app.py lines 147-167): missing room → error to the
sender; `chess.Move.from_uci` raising (including on a `None` uci field) →
`invalid_move` to the sender; illegal move → `invalid_move` to the sender;
legal move → push the move, recompute `fen`, broadcast `move_made` to the
room channel. -/
def on_make_move (L : ChessLib) (st : ServerState L) (sid : String)
    (room? uci? : Option String) : ServerState L × List Emit :=
  let room := resolveRoom room?
  match lookupA st.games room with
  | none => (st, [Emit.toSid sid (Payload.errorMsg "game not found")])
  | some game =>
    match uci? with
    | none => (st, [Emit.toSid sid (Payload.invalidMove "invalid uci")])
    | some u =>
      match L.fromUci u with
      | none => (st, [Emit.toSid sid (Payload.invalidMove "invalid uci")])
      | some mv =>
        if L.legal game.board mv then
          let b := L.push game.board mv
          let game' : Game L := { game with board := b, fen := L.fen b }
          (⟨insertA st.games room game', st.channels⟩,
           [Emit.toRoom room (Payload.moveMade u (L.fen b))])
        else (st, [Emit.toSid sid (Payload.invalidMove "illegal move")])

/-- `on_reset` (src/app.py lines 169-174): unconditionally installs a fresh
game for the resolved room id (whether or not a room existed) and broadcasts
the starting fen to the room channel.  The socket id of the sender is unused. -/
def on_reset (L : ChessLib) (st : ServerState L) (_sid : String)
    (room? : Option String) : ServerState L × List Emit :=
  let room := resolveRoom room?
  let b := L.start
  (⟨insertA st.games room ⟨b, [], L.fen b⟩, st.channels⟩,
   [Emit.toRoom room (Payload.gameState (L.fen b))])

/-- One inbound SocketIO event. -/
inductive Event where
  | join (sid : String) (room? : Option String)
  | move (sid : String) (room? : Option String) (uci? : Option String)
  | reset (sid : String) (room? : Option String)

/-- Dispatch one event to its handler. -/
def step (L : ChessLib) (st : ServerState L) : Event → ServerState L × List Emit
  | Event.join sid room? => on_join_game L st sid room?
  | Event.move sid room? uci? => on_make_move L st sid room? uci?
  | Event.reset sid room? => on_reset L st sid room?

/-- Process start: `games = {}`, no channel memberships. -/
def initState (L : ChessLib) : ServerState L := ⟨[], []⟩

/-- State after a sequence of events from process start. -/
def run (L : ChessLib) (evts : List Event) : ServerState L :=
  evts.foldl (fun st e => (step L st e).1) (initState L)

/-- `api_quiz_start` (src/app.py lines 102-108): with fewer than 15 questions
in the bank, a 400 error and no questions; otherwise `random.sample(questions, 15)`,
modelled by an arbitrary sampling function passed as an argument. -/
def api_quiz_start {Q : Type} (questions : List Q)
    (sample : List Q → Nat → List Q) : Except String (List Q) :=
  if questions.length < 15 then Except.error "Not enough questions in bank"
  else Except.ok (sample questions 15)

/-- One row of the `leaderboard` table.  `timestamp` abstracts the
`DATETIME DEFAULT CURRENT_TIMESTAMP` column as a monotone insertion counter
(insertions happen at distinct times). -/
structure Row where
  name : String
  score : Int
  total : Int
  timestamp : Nat
deriving DecidableEq, Repr

/-- `api_quiz_submit` (src/app.py lines 110-120): `INSERT INTO leaderboard`
appends a row; its timestamp is later than every existing row's. -/
def api_quiz_submit (table : List Row) (name : String) (score total : Int) :
    List Row :=
  table ++ [⟨name, score, total, table.length⟩]

/-- The `ORDER BY score DESC, timestamp ASC` comparison: `a` comes no later
than `b` iff `a` has a strictly greater score, or an equal score and an
earlier-or-equal timestamp. -/
def lbLE (a b : Row) : Bool :=
  b.score < a.score || (a.score = b.score && a.timestamp ≤ b.timestamp)

/-- The `ORDER BY` relation as a proposition. -/
def RowLE (a b : Row) : Prop := lbLE a b = true

instance : DecidableRel RowLE :=
  fun a b => inferInstanceAs (Decidable (lbLE a b = true))

instance : IsTotal Row RowLE where
  total a b := by
    simp only [RowLE, lbLE, Bool.or_eq_true, Bool.and_eq_true, decide_eq_true_eq]
    omega

instance : IsTrans Row RowLE where
  trans a b c hab hbc := by
    simp only [RowLE, lbLE, Bool.or_eq_true, Bool.and_eq_true,
      decide_eq_true_eq] at hab hbc ⊢
    omega

/-- `api_leaderboard` (src/app.py lines 122-128):
`SELECT ... ORDER BY score DESC, timestamp ASC LIMIT 50`.  `ORDER BY` over a
total preorder is modelled by sorting with that preorder; since the order key
(score, timestamp) is injective on the rows of any reachable table
(timestamps are distinct), every correct sort yields this same row order. -/
def api_leaderboard (table : List Row) : List Row :=
  (table.insertionSort RowLE).take 50

/-- A toy instance of the chess-library interface, used to evaluate the
handlers on concrete inputs (the handlers are polymorphic in the library). -/
def toyLib : ChessLib where
  Pos := List String
  Mv := String
  start := []
  fen p := String.intercalate "/" ("8" :: p)
  fromUci s := if s = "" then none else some s
  legal _ m := m != "bad"
  push p m := p ++ [m]

/-- Concrete state with one room "r" (fresh game, no players) for evaluating
the handlers. -/
def stR : ServerState toyLib := ⟨[("r", ⟨[], [], "8"⟩)], []⟩

/-- Concrete state reached by connection "A" joining room "r" from process
start. -/
def stJ : ServerState toyLib := ⟨[("r", ⟨[], ["A"], "8"⟩)], [("r", ["A"])]⟩

/-! ### Association-list lemmas (Python dict semantics) -/

theorem lookupA_insertA {α : Type} (l : List (String × α)) (k key : String)
    (v : α) :
    lookupA (insertA l k v) key = if key = k then some v else lookupA l key := by
  induction l with
  | nil =>
      by_cases h : key = k
      · simp [insertA, lookupA, h]
      · simp [insertA, lookupA, h, Ne.symm h]
  | cons hd t ih =>
      obtain ⟨k', w⟩ := hd
      by_cases h : k' = k
      · subst h
        by_cases h2 : key = k'
        · simp [insertA, lookupA, h2]
        · simp [insertA, lookupA, h2, Ne.symm h2]
      · by_cases h2 : k' = key
        · subst h2
          simp [insertA, lookupA, h]
        · simp [insertA, lookupA, h, h2, ih]

theorem insertA_insertA {α : Type} (l : List (String × α)) (k : String)
    (v w : α) : insertA (insertA l k v) k w = insertA l k w := by
  induction l with
  | nil => simp [insertA]
  | cons hd t ih =>
      obtain ⟨k', u⟩ := hd
      by_cases h : k' = k
      · subst h; simp [insertA]
      · simp [insertA, h, ih]

theorem mem_keys_insertA {α : Type} (l : List (String × α)) (k a : String)
    (v : α) :
    a ∈ (insertA l k v).map Prod.fst ↔ a = k ∨ a ∈ l.map Prod.fst := by
  induction l with
  | nil => simp [insertA]
  | cons hd t ih =>
      obtain ⟨k', w⟩ := hd
      by_cases h : k' = k
      · subst h; simp [insertA]
      · simp only [insertA, if_neg h, List.map_cons, List.mem_cons, ih]
        tauto

theorem nodup_keys_insertA {α : Type} (l : List (String × α)) (k : String)
    (v : α) (h : (l.map Prod.fst).Nodup) :
    ((insertA l k v).map Prod.fst).Nodup := by
  induction l with
  | nil => simp [insertA]
  | cons hd t ih =>
      obtain ⟨k', w⟩ := hd
      simp only [List.map_cons, List.nodup_cons] at h
      by_cases hk : k' = k
      · subst hk
        simpa [insertA] using h
      · simp only [insertA, if_neg hk, List.map_cons, List.nodup_cons]
        refine ⟨fun hmem => ?_, ih h.2⟩
        rcases (mem_keys_insertA t k k' v).mp hmem with h1 | h1
        · exact hk h1
        · exact h.1 h1

/-! ### Characterization of the handlers on each branch -/

theorem on_join_game_of_none (L : ChessLib) (st : ServerState L) (sid : String)
    (room? : Option String)
    (h : lookupA st.games (resolveRoom room?) = none) :
    on_join_game L st sid room? =
      (⟨insertA st.games (resolveRoom room?) ⟨L.start, [sid], L.fen L.start⟩,
        joinChannel st.channels (resolveRoom room?) sid⟩,
       [Emit.toSid sid (Payload.gameState (L.fen L.start))]) := by
  simp [on_join_game, h, insertA_insertA]

theorem on_join_game_of_some (L : ChessLib) (st : ServerState L) (sid : String)
    (room? : Option String) (g : Game L)
    (h : lookupA st.games (resolveRoom room?) = some g) :
    on_join_game L st sid room? =
      (⟨insertA st.games (resolveRoom room?)
          (if sid ∈ g.players then g
           else { g with players := g.players ++ [sid] }),
        joinChannel st.channels (resolveRoom room?) sid⟩,
       [Emit.toSid sid (Payload.gameState g.fen)]) := by
  by_cases hp : sid ∈ g.players
  · simp [on_join_game, h, hp]
  · simp [on_join_game, h, hp]

theorem on_make_move_of_no_room (L : ChessLib) (st : ServerState L)
    (sid : String) (room? uci? : Option String)
    (h : lookupA st.games (resolveRoom room?) = none) :
    on_make_move L st sid room? uci? =
      (st, [Emit.toSid sid (Payload.errorMsg "game not found")]) := by
  simp [on_make_move, h]

theorem on_make_move_malformed (L : ChessLib) (st : ServerState L)
    (sid : String) (room? uci? : Option String) (g : Game L)
    (hg : lookupA st.games (resolveRoom room?) = some g)
    (hbad : uci?.bind L.fromUci = none) :
    on_make_move L st sid room? uci? =
      (st, [Emit.toSid sid (Payload.invalidMove "invalid uci")]) := by
  cases uci? with
  | none => simp [on_make_move, hg]
  | some u =>
      simp only [Option.some_bind] at hbad
      simp [on_make_move, hg, hbad]

theorem on_make_move_illegal (L : ChessLib) (st : ServerState L)
    (sid : String) (room? : Option String) (u : String) (g : Game L)
    (mv : L.Mv) (hg : lookupA st.games (resolveRoom room?) = some g)
    (hp : L.fromUci u = some mv) (hl : L.legal g.board mv = false) :
    on_make_move L st sid room? (some u) =
      (st, [Emit.toSid sid (Payload.invalidMove "illegal move")]) := by
  simp [on_make_move, hg, hp, hl]

theorem on_make_move_legal (L : ChessLib) (st : ServerState L)
    (sid : String) (room? : Option String) (u : String) (g : Game L)
    (mv : L.Mv) (hg : lookupA st.games (resolveRoom room?) = some g)
    (hp : L.fromUci u = some mv) (hl : L.legal g.board mv = true) :
    on_make_move L st sid room? (some u) =
      (⟨insertA st.games (resolveRoom room?)
          ⟨L.push g.board mv, g.players, L.fen (L.push g.board mv)⟩,
        st.channels⟩,
       [Emit.toRoom (resolveRoom room?)
          (Payload.moveMade u (L.fen (L.push g.board mv)))]) := by
  simp [on_make_move, hg, hp, hl]

/-! ### The global state invariant: every stored `fen` is the serialization
of the stored `board`, `players` lists are duplicate-free, and the `games`
dict binds each room id at most once. -/

def Inv (L : ChessLib) (st : ServerState L) : Prop :=
  (∀ k g, lookupA st.games k = some g →
     g.fen = L.fen g.board ∧ g.players.Nodup) ∧
  (st.games.map Prod.fst).Nodup

theorem inv_init (L : ChessLib) : Inv L (initState L) := by
  constructor
  · intro k g h; simp [initState, lookupA] at h
  · simp [initState]

theorem inv_insert (L : ChessLib) (st : ServerState L) (chs : List (String × List String))
    (room : String) (g : Game L) (h : Inv L st)
    (hfen : g.fen = L.fen g.board) (hnd : g.players.Nodup) :
    Inv L ⟨insertA st.games room g, chs⟩ := by
  constructor
  · intro k g' hk
    simp only [lookupA_insertA] at hk
    by_cases hkr : k = room
    · rw [if_pos hkr] at hk
      cases hk
      exact ⟨hfen, hnd⟩
    · rw [if_neg hkr] at hk
      exact h.1 k g' hk
  · exact nodup_keys_insertA _ _ _ h.2

theorem inv_step (L : ChessLib) (st : ServerState L) (e : Event)
    (h : Inv L st) : Inv L (step L st e).1 := by
  cases e with
  | join sid room? =>
      cases hg : lookupA st.games (resolveRoom room?) with
      | none =>
          rw [step, on_join_game_of_none L st sid room? hg]
          exact inv_insert L st _ _ _ h rfl (by simp)
      | some g =>
          rw [step, on_join_game_of_some L st sid room? g hg]
          have hgood := h.1 _ g hg
          by_cases hp : sid ∈ g.players
          · rw [if_pos hp]
            exact inv_insert L st _ _ _ h hgood.1 hgood.2
          · rw [if_neg hp]
            refine inv_insert L st _ _ _ h hgood.1 ?_
            simp [List.Nodup, List.pairwise_append]
            exact ⟨hgood.2, fun a ha hab => hp (hab ▸ ha)⟩
  | move sid room? uci? =>
      cases hg : lookupA st.games (resolveRoom room?) with
      | none => rw [step, on_make_move_of_no_room L st sid room? uci? hg]; exact h
      | some g =>
          cases hu : uci?.bind L.fromUci with
          | none => rw [step, on_make_move_malformed L st sid room? uci? g hg hu]; exact h
          | some mv =>
              obtain ⟨u, hsome, hp⟩ := Option.bind_eq_some.mp hu
              subst hsome
              cases hl : L.legal g.board mv with
              | false =>
                  rw [step, on_make_move_illegal L st sid room? u g mv hg hp hl]
                  exact h
              | true =>
                  rw [step, on_make_move_legal L st sid room? u g mv hg hp hl]
                  exact inv_insert L st _ _ _ h rfl (h.1 _ g hg).2
  | reset sid room? =>
      rw [step, on_reset]
      exact inv_insert L st _ _ _ h rfl (by simp)

theorem inv_run (L : ChessLib) (evts : List Event) : Inv L (run L evts) := by
  rw [run]
  induction evts using List.reverseRecOn with
  | nil => exact inv_init L
  | append_singleton es e ih =>
      rw [List.foldl_append, List.foldl_cons, List.foldl_nil]
      exact inv_step L _ e ih

/-! ### Claim theorems -/

/-- C1: after any sequence of join/move/reset events from process start,
every room's stored serialized state `fen` equals the serialization of its
stored `board`; the two never diverge. -/
theorem claim_fen_never_diverges (L : ChessLib) (evts : List Event)
    (k : String) (g : Game L)
    (h : lookupA (run L evts).games k = some g) :
    g.fen = L.fen g.board :=
  ((inv_run L evts).1 k g h).1

theorem claim_fen_never_diverges_witness :
    (⟨["e2e4"], ["A"], "8/e2e4"⟩ : Game toyLib).fen = toyLib.fen ["e2e4"] :=
  claim_fen_never_diverges toyLib
    [Event.join "A" (some "r"), Event.move "A" (some "r") (some "e2e4")]
    "r" ⟨["e2e4"], ["A"], "8/e2e4"⟩ (by rfl)

/-- C2: a move attempt that fails — unparseable notation or a parsed move
not legal in the current position — leaves the whole server state (position,
fen, participants) unchanged and emits exactly one error, addressed to the
originating socket only, never to other participants. -/
theorem claim_failed_move_is_local (L : ChessLib) (st : ServerState L)
    (sid : String) (room? uci? : Option String) (g : Game L)
    (hg : lookupA st.games (resolveRoom room?) = some g)
    (hfail : uci?.bind L.fromUci = none ∨
      ∃ mv, uci?.bind L.fromUci = some mv ∧ L.legal g.board mv = false) :
    ∃ msg,
      on_make_move L st sid room? uci? =
        (st, [Emit.toSid sid (Payload.invalidMove msg)]) ∧
      ∀ c, deliveredTo st (Emit.toSid sid (Payload.invalidMove msg)) c →
        c = sid := by
  rcases hfail with hbad | ⟨mv, hu, hl⟩
  · exact ⟨"invalid uci",
      on_make_move_malformed L st sid room? uci? g hg hbad, fun c hc => hc⟩
  · obtain ⟨u, huci, hp⟩ := Option.bind_eq_some.mp hu
    subst huci
    exact ⟨"illegal move",
      on_make_move_illegal L st sid room? u g mv hg hp hl, fun c hc => hc⟩

theorem claim_failed_move_is_local_witness :
    ∃ msg,
      on_make_move toyLib stR "A" (some "r") (some "bad") =
        (stR, [Emit.toSid "A" (Payload.invalidMove msg)]) ∧
      ∀ c, deliveredTo stR (Emit.toSid "A" (Payload.invalidMove msg)) c →
        c = "A" :=
  claim_failed_move_is_local toyLib stR "A" (some "r") (some "bad")
    ⟨[], [], "8"⟩ (by rfl) (Or.inr ⟨"bad", by rfl, by rfl⟩)

/-- C3: a move attempt that parses and is legal replaces the room's position
with the move applied, recomputes the serialized state from the new position,
and broadcasts `{uci, fen}` to the room channel, reaching every connection
joined to the room. -/
theorem claim_legal_move_broadcast (L : ChessLib) (st : ServerState L)
    (sid : String) (room? : Option String) (u : String) (g : Game L)
    (mv : L.Mv) (hg : lookupA st.games (resolveRoom room?) = some g)
    (hp : L.fromUci u = some mv) (hl : L.legal g.board mv = true) :
    on_make_move L st sid room? (some u) =
      (⟨insertA st.games (resolveRoom room?)
          ⟨L.push g.board mv, g.players, L.fen (L.push g.board mv)⟩,
        st.channels⟩,
       [Emit.toRoom (resolveRoom room?)
          (Payload.moveMade u (L.fen (L.push g.board mv)))]) ∧
    lookupA (on_make_move L st sid room? (some u)).1.games
        (resolveRoom room?) =
      some ⟨L.push g.board mv, g.players, L.fen (L.push g.board mv)⟩ ∧
    ∀ c ∈ channelMembers st (resolveRoom room?),
      deliveredTo (on_make_move L st sid room? (some u)).1
        (Emit.toRoom (resolveRoom room?)
          (Payload.moveMade u (L.fen (L.push g.board mv)))) c := by
  have heq := on_make_move_legal L st sid room? u g mv hg hp hl
  refine ⟨heq, ?_, ?_⟩
  · rw [heq]
    simp [lookupA_insertA]
  · intro c hc
    rw [heq]
    exact hc

theorem claim_legal_move_broadcast_witness :
    on_make_move toyLib stJ "A" (some "r") (some "e2e4") =
      (⟨insertA stJ.games (resolveRoom (some "r"))
          ⟨toyLib.push [] "e2e4", ["A"], toyLib.fen (toyLib.push [] "e2e4")⟩,
        stJ.channels⟩,
       [Emit.toRoom (resolveRoom (some "r"))
          (Payload.moveMade "e2e4" (toyLib.fen (toyLib.push [] "e2e4")))]) :=
  (claim_legal_move_broadcast toyLib stJ "A" (some "r") "e2e4"
    ⟨[], ["A"], "8"⟩ "e2e4" (by rfl) (by rfl) (by rfl)).1

/-- C4: a join on an unknown room id creates a fresh room (starting position,
previously empty participants, now holding just the joiner); a join on a known
id reuses the existing room with board and fen intact, adding the connection
id only if absent; across all event sequences the registry binds each id at
most once and no participants list holds duplicates. -/
theorem claim_join_idempotent (L : ChessLib) (st : ServerState L)
    (sid : String) (room? : Option String) :
    (lookupA st.games (resolveRoom room?) = none →
       lookupA (on_join_game L st sid room?).1.games (resolveRoom room?) =
         some ⟨L.start, [sid], L.fen L.start⟩) ∧
    (∀ g, lookupA st.games (resolveRoom room?) = some g →
       lookupA (on_join_game L st sid room?).1.games (resolveRoom room?) =
         some (if sid ∈ g.players then g
               else { g with players := g.players ++ [sid] })) ∧
    (∀ evts : List Event, ((run L evts).games.map Prod.fst).Nodup) ∧
    (∀ evts : List Event, ∀ k g,
       lookupA (run L evts).games k = some g → g.players.Nodup) := by
  refine ⟨?_, ?_, fun evts => (inv_run L evts).2,
    fun evts k g h => ((inv_run L evts).1 k g h).2⟩
  · intro h
    rw [on_join_game_of_none L st sid room? h]
    simp [lookupA_insertA]
  · intro g h
    rw [on_join_game_of_some L st sid room? g h]
    simp [lookupA_insertA]

theorem claim_join_idempotent_witness :
    lookupA (on_join_game toyLib (initState toyLib) "A" (some "r")).1.games
        (resolveRoom (some "r")) =
      some ⟨toyLib.start, ["A"], toyLib.fen toyLib.start⟩ :=
  (claim_join_idempotent toyLib (initState toyLib) "A" (some "r")).1 (by rfl)

/-- C5: a reset unconditionally installs a fresh room — starting position,
canonical starting serialization, empty participants — whether or not a room
existed for the id, and broadcasts the starting fen to the room channel. -/
theorem claim_reset_installs_fresh_room (L : ChessLib) (st : ServerState L)
    (sid : String) (room? : Option String) :
    on_reset L st sid room? =
      (⟨insertA st.games (resolveRoom room?) ⟨L.start, [], L.fen L.start⟩,
        st.channels⟩,
       [Emit.toRoom (resolveRoom room?) (Payload.gameState (L.fen L.start))]) ∧
    lookupA (on_reset L st sid room?).1.games (resolveRoom room?) =
      some ⟨L.start, [], L.fen L.start⟩ := by
  refine ⟨rfl, ?_⟩
  rw [on_reset]
  simp [lookupA_insertA]

/-- C6 counterexample: a reset targeting a room id no connection has joined
(empty registry) creates a room and broadcasts the starting state — it does
not answer "room not found" and it does change state. -/
theorem claim_missing_room_counterexample :
    lookupA (on_reset toyLib (initState toyLib) "A" (some "r")).1.games "r" =
      some ⟨[], [], "8"⟩ ∧
    (on_reset toyLib (initState toyLib) "A" (some "r")).2 =
      [Emit.toRoom "r" (Payload.gameState "8")] :=
  ⟨by rfl, by rfl⟩

/-- C6 (amended): a move targeting a room id with no room in the registry is
answered with a "game not found" notice to the originating connection only,
with no room created and no state change; a reset on such an id instead
creates a fresh room with the starting position. -/
theorem claim_missing_room_handling (L : ChessLib) (st : ServerState L)
    (sid : String) (room? uci? : Option String)
    (h : lookupA st.games (resolveRoom room?) = none) :
    on_make_move L st sid room? uci? =
      (st, [Emit.toSid sid (Payload.errorMsg "game not found")]) ∧
    lookupA (on_reset L st sid room?).1.games (resolveRoom room?) =
      some ⟨L.start, [], L.fen L.start⟩ := by
  refine ⟨on_make_move_of_no_room L st sid room? uci? h, ?_⟩
  rw [on_reset]
  simp [lookupA_insertA]

theorem claim_missing_room_handling_witness :
    on_make_move toyLib (initState toyLib) "A" (some "r") (some "e2e4") =
      (initState toyLib, [Emit.toSid "A" (Payload.errorMsg "game not found")]) :=
  (claim_missing_room_handling toyLib (initState toyLib) "A" (some "r")
    (some "e2e4") (by rfl)).1

/-- C7: a quiz-start request fails with the 400 error and returns no
questions when the bank has fewer than 15 questions; otherwise it returns
exactly 15 questions, all drawn from the bank.  The theorem holds for any
sampling function with `random.sample`'s contract (a sample of `k` elements
of the population, for `k` at most the population size). -/
theorem claim_quiz_start (Q : Type) (questions : List Q)
    (sample : List Q → Nat → List Q)
    (hlen : ∀ l : List Q, ∀ k, k ≤ l.length → (sample l k).length = k)
    (hmem : ∀ l : List Q, ∀ k, ∀ x, x ∈ sample l k → x ∈ l) :
    (questions.length < 15 →
       api_quiz_start questions sample =
         Except.error "Not enough questions in bank") ∧
    (15 ≤ questions.length →
       ∃ sel, api_quiz_start questions sample = Except.ok sel ∧
         sel.length = 15 ∧ ∀ x ∈ sel, x ∈ questions) := by
  constructor
  · intro h
    simp [api_quiz_start, h]
  · intro h
    refine ⟨sample questions 15, ?_, hlen questions 15 h,
      fun x hx => hmem questions 15 x hx⟩
    simp [api_quiz_start, Nat.not_lt.mpr h]

theorem claim_quiz_start_witness :
    (api_quiz_start (List.range 10) (fun l k => l.take k) =
       Except.error "Not enough questions in bank") ∧
    ∃ sel, api_quiz_start (List.range 20) (fun l k => l.take k) =
        Except.ok sel ∧ sel.length = 15 ∧ ∀ x ∈ sel, x ∈ List.range 20 :=
  ⟨(claim_quiz_start Nat (List.range 10) (fun l k => l.take k)
      (fun l k hk => by rw [List.length_take]; exact Nat.min_eq_left hk)
      (fun l k x hx => List.take_subset k l hx)).1 (by decide),
   (claim_quiz_start Nat (List.range 20) (fun l k => l.take k)
      (fun l k hk => by rw [List.length_take]; exact Nat.min_eq_left hk)
      (fun l k x hx => List.take_subset k l hx)).2 (by decide)⟩

/-- C8: a leaderboard read returns at most 50 rows, ordered by score
descending with earlier timestamp first as tie-break, for every sequence of
submissions; and after the submissions (A,10,15), (B,12,15), (A,8,15) the
returned order is B, A(10), A(8). -/
theorem claim_leaderboard_order (subs : List (String × Int × Int)) :
    (api_leaderboard
        (subs.foldl (fun t s => api_quiz_submit t s.1 s.2.1 s.2.2) [])).length
      ≤ 50 ∧
    (api_leaderboard
        (subs.foldl (fun t s => api_quiz_submit t s.1 s.2.1 s.2.2)
          [])).Pairwise RowLE ∧
    api_leaderboard
        (api_quiz_submit
          (api_quiz_submit (api_quiz_submit [] "A" 10 15) "B" 12 15)
          "A" 8 15) =
      [⟨"B", 12, 15, 1⟩, ⟨"A", 10, 15, 0⟩, ⟨"A", 8, 15, 2⟩] := by
  refine ⟨?_, ?_, by decide⟩
  · exact List.length_take_le 50 _
  · exact List.Pairwise.sublist (List.take_sublist 50 _)
      (List.sorted_insertionSort RowLE _)

/-- C9: a falsy room id — the field missing or null (`none`) as well as the
empty string — resolves to the sentinel room id "default" in all three
handlers, so a join with room "" and a join with no room field operate on the
same room; any non-empty room id is kept as is. -/
theorem claim_falsy_room_defaults (L : ChessLib) (st : ServerState L)
    (sid : String) (uci? : Option String) :
    resolveRoom none = "default" ∧
    resolveRoom (some "") = "default" ∧
    (∀ s : String, s ≠ "" → resolveRoom (some s) = s) ∧
    on_join_game L st sid none = on_join_game L st sid (some "") ∧
    on_make_move L st sid none uci? = on_make_move L st sid (some "") uci? ∧
    on_reset L st sid none = on_reset L st sid (some "") :=
  ⟨rfl, rfl, fun s hs => by simp [resolveRoom, hs], rfl, rfl, rfl⟩

theorem claim_falsy_room_defaults_witness :
    resolveRoom (some "r") = "r" :=
  (claim_falsy_room_defaults toyLib (initState toyLib) "A" none).2.2.1 "r"
    (by decide)

/-- C10: the move handler is total over payloads: whenever the room exists
and the `uci` field is missing (`none`) or is a string the parser rejects,
the handler returns (it is a total Lean function, the counterpart of "no
uncaught exception escapes the `except Exception` guard"), taking exactly the
malformed-move branch: one `invalid_move` emission to the sender and an
unchanged state. -/
theorem claim_move_handler_total (L : ChessLib) (st : ServerState L)
    (sid : String) (room? uci? : Option String) (g : Game L)
    (hg : lookupA st.games (resolveRoom room?) = some g)
    (hbad : uci?.bind L.fromUci = none) :
    on_make_move L st sid room? uci? =
      (st, [Emit.toSid sid (Payload.invalidMove "invalid uci")]) :=
  on_make_move_malformed L st sid room? uci? g hg hbad

theorem claim_move_handler_total_witness :
    on_make_move toyLib stR "A" (some "r") none =
      (stR, [Emit.toSid "A" (Payload.invalidMove "invalid uci")]) :=
  claim_move_handler_total toyLib stR "A" (some "r") none ⟨[], [], "8"⟩
    (by rfl) (by rfl)

end LitTouch
